import Mathlib

/-!
Shallow embedding of the crabby-merge core: the backoff state machine
(src/backoff.rs, src/history_file.rs), the trigger matcher (the compiled
merge regex of src/lib.rs used by src/search.rs), the PR evaluator and
orchestrator actions (src/search.rs), and the top-level sweep (src/main.rs).

Modelling conventions:
* Time is an integer number of seconds (`Int`); `time::Duration` values are
  seconds, so `Duration::ZERO = 0` and `Duration::minutes(5) = 5 * 60`.
* The durable store holds at most one record per key.  A single key's stored
  state is `StoredRecord`: `absent` (no file), `corrupt` (a file whose JSON
  does not decode), or `record h` (a decodable file).  Writes are assumed to
  reach the filesystem (the Rust code logs and ignores save errors, so the
  ideal-filesystem model is the path the decision logic takes).
* Fallible Rust functions returning `Result` become `Except Unit`.
-/

/-- Retry history for a single pull request (src/history_file.rs, `History`):
`n_retries` past retries and the timestamp of the last save. -/
structure History where
  n_retries : Nat
  last_update : Int
deriving DecidableEq, Repr

/-- A key's durable state: no file, an undecodable file, or a decoded record. -/
inductive StoredRecord where
  | absent
  | corrupt
  | record (h : History)
deriving DecidableEq, Repr

/-- `History::load` via `History::from_file` (src/history_file.rs:65-78):
a missing file is `Ok(None)`, an undecodable file is `Err`, otherwise the
decoded record. -/
def History.load : StoredRecord → Except Unit (Option History)
  | .absent => .ok none
  | .corrupt => .error ()
  | .record h => .ok (some h)

/-- `History::save` (src/history_file.rs:56-63): overwrite the key's file with
a fresh record stamped with the current time.  The result does not depend on
the previous state because `File::create` truncates. -/
def History.save (now : Int) (n : Nat) : StoredRecord :=
  .record { n_retries := n, last_update := now }

/-- The state left behind by `History::delete` (src/history_file.rs:81-83):
`std::fs::remove_file` leaves the key absent whether or not a file existed. -/
def History.deleteState (_ : StoredRecord) : StoredRecord := .absent

/-- The `Result` returned by `History::delete`: `remove_file` succeeds when a
file exists (decodable or not) and fails with a not-found error otherwise. -/
def History.deleteResult : StoredRecord → Except Unit Unit
  | .absent => .error ()
  | .corrupt => .ok ()
  | .record _ => .ok ()

/-- `History::age` (src/history_file.rs:86-88): time since the last save. -/
def History.age (now : Int) (h : History) : Int := now - h.last_update

/-- `backoff_time` (src/backoff.rs:7-13): zero before the first retry, five
minutes afterwards. -/
def backoff_time (n_retries : Nat) : Int :=
  if n_retries = 0 then 0 else 5 * 60

/-- `should_retry_now` (src/backoff.rs:15-40), as a pure function of the
current time and the key's stored state, returning the decision and the new
stored state.  The three branches mirror the `match History::load`:
load error deletes and denies; a clean miss saves a zero-count record and
grants iff `max_retries > 0 && backoff_time(0) == Duration::ZERO`; a hit
grants, saving the advanced count, iff the count is below the ceiling and the
record's age has reached the backoff delay. -/
def should_retry_now (now : Int) (max_retries : Nat) (s : StoredRecord) :
    Bool × StoredRecord :=
  match History.load s with
  | .error _ => (false, History.deleteState s)
  | .ok none =>
      (decide (0 < max_retries ∧ backoff_time 0 = 0), History.save now 0)
  | .ok (some history) =>
      if history.n_retries < max_retries ∧
          History.age now history ≥ backoff_time history.n_retries then
        (true, History.save now (history.n_retries + 1))
      else
        (false, s)

/-- Run a sequence of `should_retry_now` calls, threading the stored state;
each call is a pair (current time, max_retries). -/
def runCalls : List (Int × Nat) → StoredRecord → StoredRecord
  | [], s => s
  | (now, max_retries) :: rest, s =>
      runCalls rest (should_retry_now now max_retries s).2

/-- Like `runCalls`, but also collect the boolean decisions, in call order. -/
def runCallsAcc : List (Int × Nat) → StoredRecord → List Bool × StoredRecord
  | [], s => ([], s)
  | (now, max_retries) :: rest, s =>
      let r := should_retry_now now max_retries s
      let t := runCallsAcc rest r.2
      (r.1 :: t.1, t.2)

/-!
Trigger matcher.  `Config::load_from_default_file` (src/lib.rs:86-89) compiles
the configured `merge_trigger` with `RegexBuilder::new(..).multi_line(true)`;
the default trigger is the literal `:shipit:` (src/lib.rs:58).  We give the
regex semantics for the fragment the relevant patterns use: literal
characters plus the `^` and `$` anchors under the multi-line flag, where `^`
matches at the start of the haystack or right after a newline and `$` at the
end or right before a newline.  A literal-only pattern such as `:shipit:`
therefore matches exactly when it occurs as a substring.
-/

/-- One token of a (multi-line) regex pattern: a literal character, `^`, `$`. -/
inductive RegTok where
  | lit (c : Char)
  | caret
  | dollar
deriving DecidableEq, Repr

/-- Match the whole token list starting at the current position.  `prev` is
the character just before the position (`none` at the start of the haystack);
`rest` is the remaining text. -/
def matchHere (prev : Option Char) : List RegTok → List Char → Bool
  | [], _ => true
  | .caret :: ts, rest =>
      (match prev with
       | none => true
       | some c => c = '\n') && matchHere prev ts rest
  | .dollar :: ts, rest =>
      (match rest with
       | [] => true
       | c :: _ => c = '\n') && matchHere prev ts rest
  | .lit _ :: _, [] => false
  | .lit c :: ts, x :: rest => (c = x) && matchHere (some x) ts rest

/-- Try to match at the current position or at any later one. -/
def isMatchFrom (prev : Option Char) (toks : List RegTok) :
    List Char → Bool
  | [] => matchHere prev toks []
  | c :: rest => matchHere prev toks (c :: rest) || isMatchFrom (some c) toks rest

/-- `Regex::is_match` for a pattern in the supported fragment. -/
def regexIsMatch (toks : List RegTok) (text : List Char) : Bool :=
  isMatchFrom none toks text

/-- The default `merge_trigger` pattern `:shipit:` (src/lib.rs:58): eight
literal tokens, no anchors. -/
def shipitToks : List RegTok := ":shipit:".data.map RegTok.lit

/-- Modelled from the spec: the line-anchored reading of the trigger pattern,
wrapping the marker in `^` and `$` as the spec's words "`^pattern$` against
each line" describe.  The source never adds these anchors; this definition
exists only to compare the spec's description with `shipitToks`. -/
def anchoredShipitToks : List RegTok :=
  RegTok.caret :: shipitToks ++ [RegTok.dollar]

/-!
PR evaluator: `should_merge` (src/search.rs:21-51).  The matcher argument
embeds `config.merge_regex.is_match`; the fetch argument embeds the result of
`api.get_pr_comments(pr, Some(username))`, the comments authored by the
current user.
-/

/-- The two configuration flags `should_merge` reads (src/lib.rs:21-22). -/
structure SearchConfig where
  check_description : Bool
  check_comments : Bool
deriving DecidableEq, Repr

/-- The comment list `should_merge` iterates over: a fetch error is logged
and replaced by `Vec::new()` (src/search.rs:36-42). -/
def commentsOrEmpty (fetch : Except Unit (List (List Char))) :
    List (List Char) :=
  match fetch with
  | .ok cs => cs
  | .error _ => []

/-- `should_merge` (src/search.rs:21-51): if descriptions are checked and the
merge regex matches the description (an absent description is the empty
string), return true at once; otherwise, if comments are checked, return true
iff some fetched comment matches, a failed fetch counting as no comments;
otherwise false. -/
def should_merge (is_match : List Char → Bool) (cfg : SearchConfig)
    (description : Option (List Char))
    (fetch : Except Unit (List (List Char))) : Bool :=
  if cfg.check_description && is_match (description.getD []) then
    true
  else if cfg.check_comments then
    (commentsOrEmpty fetch).any is_match
  else
    false

/-!
Orchestrator per-PR action after the merge attempt (src/search.rs:71-90) and
the two scope drivers (src/search.rs:131-160, src/main.rs:120-163).
-/

/-- The fields of `bitbucket::PullRequest` the modelled logic reads:
`author()` and `hash()` both return options (src/bitbucket.rs:32-36,
src/search.rs:76,108). -/
structure PullRequest where
  author : Option String
  description : Option (List Char)
  hash : Option String

/-- The store update of the merge-success arm (src/search.rs:72-80): when the
PR's commit hash resolves, `History::delete(hash)` is issued and its result
discarded; without a hash the store is untouched. -/
def merge_success_cleanup (hash : Option String)
    (store : String → StoredRecord) : String → StoredRecord :=
  match hash with
  | some k => fun k2 => if k2 = k then History.deleteState (store k2) else store k2
  | none => store

/-- The store update of one PR's merge-attempt aftermath
(src/search.rs:71-90): on `Ok` the success cleanup runs; on `Err` the retry
path `retry_pr_builds` runs, abstracted here as an arbitrary store
transformer `retry_effect`. -/
def check_pr_after_merge (merge_result : Except Unit Unit)
    (hash : Option String)
    (retry_effect : (String → StoredRecord) → String → StoredRecord)
    (store : String → StoredRecord) : String → StoredRecord :=
  match merge_result with
  | .ok _ => merge_success_cleanup hash store
  | .error _ => retry_effect store

/-- The distinguishable outcomes of `own_prs` (src/search.rs:131-142). -/
inductive OwnPrsOutcome where
  | fetch_error
  | panic_index_out_of_bounds
  | panic_no_author
  | ok (n : Nat)
deriving DecidableEq, Repr

/-- `own_prs` (src/search.rs:131-142) up to the point its count is decided:
a failed `get_prs` propagates as `Err` (the `?`); otherwise `prs[0]` is
indexed unconditionally to derive the username, which panics on an empty
vector; `.expect("No author field")` panics when the author is unresolvable;
otherwise the scope reports `prs.len()`. -/
def own_prs (fetch : Except Unit (List PullRequest)) : OwnPrsOutcome :=
  match fetch with
  | .error _ => .fetch_error
  | .ok [] => .panic_index_out_of_bounds
  | .ok (pr :: rest) =>
      match pr.author with
      | none => .panic_no_author
      | some _ => .ok (pr :: rest).length

/-- One scope's contribution to the sweep (src/main.rs:120-159): a disabled
scope contributes 0; an enabled scope contributes its PR count, and a
scope-fatal error is logged and contributes 0 instead of aborting. -/
def scope_count (check : Bool) (result : Except Unit Nat) : Nat :=
  if check then
    match result with
    | .ok n => n
    | .error _ => 0
  else 0

/-- The pair of per-scope counts `main` computes by joining the two scope
futures (src/main.rs:120-163); the sweep itself then finishes with `Ok(())`
regardless of either scope's outcome. -/
def run_sweep (check_own check_approved : Bool)
    (own approved : Except Unit Nat) : Nat × Nat :=
  (scope_count check_own own, scope_count check_approved approved)

/-!  Theorems  -/

/-- C1: when loading the stored record succeeds, `should_retry_now` follows
the decision table: with no record present it saves a zero-count record and
returns true exactly when the retry ceiling is positive; with a record
present it returns true exactly when the count is below the ceiling and the
record's age has reached the backoff delay, saving the advanced count in that
case, and otherwise returns false leaving the store untouched. -/
theorem should_retry_now_decision_table (now : Int) (max_retries : Nat)
    (s : StoredRecord) (hok : (History.load s).isOk = true) :
    (s = StoredRecord.absent →
      (should_retry_now now max_retries s).2 =
        StoredRecord.record { n_retries := 0, last_update := now } ∧
      ((should_retry_now now max_retries s).1 = true ↔ 0 < max_retries)) ∧
    (∀ h : History, s = StoredRecord.record h →
      ((should_retry_now now max_retries s).1 = true ↔
        h.n_retries < max_retries ∧
          History.age now h ≥ backoff_time h.n_retries) ∧
      (h.n_retries < max_retries ∧
          History.age now h ≥ backoff_time h.n_retries →
        (should_retry_now now max_retries s).2 =
          StoredRecord.record { n_retries := h.n_retries + 1, last_update := now }) ∧
      (¬ (h.n_retries < max_retries ∧
            History.age now h ≥ backoff_time h.n_retries) →
        (should_retry_now now max_retries s).1 = false ∧
        (should_retry_now now max_retries s).2 = s)) := by
  cases s with
  | absent =>
      refine ⟨fun _ => ⟨rfl, ?_⟩, fun h hc => by cases hc⟩
      simp [should_retry_now, History.load, History.save, backoff_time]
  | corrupt =>
      exact absurd hok (by simp [History.load, Except.isOk, Except.toBool])
  | record h0 =>
      refine ⟨fun hc => (nomatch hc), fun h hc => ?_⟩
      cases hc
      by_cases hcond : h0.n_retries < max_retries ∧
          History.age now h0 ≥ backoff_time h0.n_retries
      · refine ⟨?_, fun _ => ?_, fun hn => absurd hcond hn⟩ <;>
          simp [should_retry_now, History.load, History.save, hcond]
      · refine ⟨?_, fun hy => absurd hy hcond, fun _ => ?_⟩ <;>
          simp [should_retry_now, History.load, hcond]

/-- Witness for C1: on a fresh key at time 0 with ceiling 1, the call stores
a zero-count record and grants the retry. -/
theorem should_retry_now_decision_table_witness :
    (should_retry_now 0 1 StoredRecord.absent).2 =
      StoredRecord.record { n_retries := 0, last_update := 0 } ∧
    ((should_retry_now 0 1 StoredRecord.absent).1 = true ↔ 0 < 1) :=
  (should_retry_now_decision_table 0 1 StoredRecord.absent (by decide)).1 rfl

/-- A single granted call advances the stored count by one; a denied call
leaves the record in place: a present record never steps to a smaller
count. -/
theorem should_retry_now_record_step (now : Int) (max_retries : Nat)
    (h : History) :
    ∃ h', (should_retry_now now max_retries (StoredRecord.record h)).2 =
        StoredRecord.record h' ∧ h.n_retries ≤ h'.n_retries := by
  by_cases hcond : h.n_retries < max_retries ∧
      History.age now h ≥ backoff_time h.n_retries
  · exact ⟨{ n_retries := h.n_retries + 1, last_update := now },
      by simp [should_retry_now, History.load, History.save, hcond],
      Nat.le_succ _⟩
  · exact ⟨h, by simp [should_retry_now, History.load, hcond], Nat.le_refl _⟩

/-- A record at or above the ceiling denies the retry and is left unchanged. -/
theorem should_retry_now_capped (now : Int) (max_retries : Nat)
    (h : History) (hge : max_retries ≤ h.n_retries) :
    should_retry_now now max_retries (StoredRecord.record h) =
      (false, StoredRecord.record h) := by
  have hcond : ¬ (h.n_retries < max_retries ∧
      History.age now h ≥ backoff_time h.n_retries) := by
    rintro ⟨hlt, -⟩; omega
  simp [should_retry_now, History.load, hcond]

/-- C3: across any sequence of `should_retry_now` calls starting from a
present record, the final state is a present record whose count is at least
the starting one (the count never decreases while the record exists); and
once the stored count has reached the ceiling, every further call with that
ceiling returns false and leaves the record unchanged. -/
theorem retry_count_monotone_and_ceiling_absorbs :
    (∀ (calls : List (Int × Nat)) (h : History),
      ∃ h', runCalls calls (StoredRecord.record h) = StoredRecord.record h' ∧
        h.n_retries ≤ h'.n_retries) ∧
    (∀ (nows : List Int) (max_retries : Nat) (h : History),
      max_retries ≤ h.n_retries →
      runCallsAcc (nows.map fun now => (now, max_retries))
          (StoredRecord.record h) =
        (nows.map fun _ => false, StoredRecord.record h)) := by
  constructor
  · intro calls
    induction calls with
    | nil => exact fun h => ⟨h, rfl, Nat.le_refl _⟩
    | cons c rest ih =>
        intro h
        obtain ⟨h1, hstep, hle1⟩ := should_retry_now_record_step c.1 c.2 h
        obtain ⟨h2, hrun, hle2⟩ := ih h1
        refine ⟨h2, ?_, Nat.le_trans hle1 hle2⟩
        simpa [runCalls, hstep] using hrun
  · intro nows max_retries h hge
    induction nows with
    | nil => rfl
    | cons now rest ih =>
        simp [runCallsAcc, should_retry_now_capped now max_retries h hge, ih]

/-- Witness for C3: from a record with count 5 and ceiling 2, two successive
calls both return false and leave the record untouched. -/
theorem retry_count_monotone_and_ceiling_absorbs_witness :
    runCallsAcc ([0, 1].map fun now => (now, 2))
        (StoredRecord.record { n_retries := 5, last_update := 0 }) =
      ([0, 1].map fun _ => false,
        StoredRecord.record { n_retries := 5, last_update := 0 }) :=
  retry_count_monotone_and_ceiling_absorbs.2 [0, 1] 2
    { n_retries := 5, last_update := 0 } (by decide)

/-- C2 counterexample: the source compiles the trigger with the multi-line
flag but never wraps it in anchors, so the unanchored default pattern
`:shipit:` matches the text " :shipit: " as a substring, where the claim
requires no match. -/
theorem shipit_inside_line_matches_counterexample :
    regexIsMatch shipitToks " :shipit: ".data = true := by decide

/-- C2 amended: with the pattern `:shipit:` matching is substring search —
all seven texts of the claim match; the line-exact table the claim states is
obtained only by writing the anchors into the pattern (`^:shipit:$` under the
multi-line flag), which the source does not do for the default trigger. -/
theorem shipit_matching_is_substring_search :
    (regexIsMatch shipitToks ":shipit:".data = true ∧
     regexIsMatch shipitToks "\n:shipit:".data = true ∧
     regexIsMatch shipitToks ":shipit:\n".data = true ∧
     regexIsMatch shipitToks "\n:shipit:\n".data = true ∧
     regexIsMatch shipitToks ":shipit: ".data = true ∧
     regexIsMatch shipitToks " :shipit:".data = true ∧
     regexIsMatch shipitToks " :shipit: ".data = true) ∧
    (regexIsMatch anchoredShipitToks ":shipit:".data = true ∧
     regexIsMatch anchoredShipitToks "\n:shipit:".data = true ∧
     regexIsMatch anchoredShipitToks ":shipit:\n".data = true ∧
     regexIsMatch anchoredShipitToks "\n:shipit:\n".data = true ∧
     regexIsMatch anchoredShipitToks ":shipit: ".data = false ∧
     regexIsMatch anchoredShipitToks " :shipit:".data = false ∧
     regexIsMatch anchoredShipitToks " :shipit: ".data = false) := by
  decide

/-- C4: `should_merge` returns true at once — independently of the comment
fetch — when descriptions are checked and the regex matches the description;
otherwise, with comments checked, it returns exactly whether some fetched
comment matches, a failed fetch counting as no comments (hence false from
the comment path); in all remaining cases it returns false. -/
theorem should_merge_spec (is_match : List Char → Bool) (cfg : SearchConfig)
    (d : Option (List Char)) (fetch : Except Unit (List (List Char))) :
    (cfg.check_description = true → is_match (d.getD []) = true →
      should_merge is_match cfg d fetch = true ∧
      ∀ fetch', should_merge is_match cfg d fetch' = true) ∧
    ((cfg.check_description && is_match (d.getD [])) = false →
      (cfg.check_comments = true →
        should_merge is_match cfg d fetch =
          (commentsOrEmpty fetch).any is_match ∧
        should_merge is_match cfg d (Except.error ()) = false) ∧
      (cfg.check_comments = false →
        should_merge is_match cfg d fetch = false)) := by
  refine ⟨fun hd hm => ⟨?_, fun fetch' => ?_⟩, fun hfalse => ⟨fun hc => ⟨?_, ?_⟩, fun hc => ?_⟩⟩ <;>
    simp_all [should_merge, commentsOrEmpty]

/-- Witness for C4: with descriptions checked and an always-matching
pattern, the decision is true for the given fetch and for every other
fetch result. -/
theorem should_merge_spec_witness :
    should_merge (fun _ => true) ⟨true, false⟩ (some []) (Except.ok []) = true ∧
    ∀ fetch', should_merge (fun _ => true) ⟨true, false⟩ (some []) fetch' = true :=
  (should_merge_spec (fun _ => true) ⟨true, false⟩ (some []) (Except.ok [])).1
    rfl rfl

/-- C5: when the merge attempt returns Ok and the PR's commit hash resolves
to a key, the per-PR aftermath deletes that key's record, so the record is
absent afterward — in particular for a store holding a count-1 record at
that key. -/
theorem merge_success_clears_history (k : String)
    (store : String → StoredRecord)
    (retry_effect : (String → StoredRecord) → String → StoredRecord) :
    check_pr_after_merge (Except.ok ()) (some k) retry_effect store k =
      StoredRecord.absent ∧
    check_pr_after_merge (Except.ok ()) (some k) retry_effect
        (fun _ => StoredRecord.record { n_retries := 1, last_update := 0 }) k =
      StoredRecord.absent := by
  constructor <;>
    simp [check_pr_after_merge, merge_success_cleanup, History.deleteState]

/-- C6: on an undecodable record `should_retry_now` returns false and leaves
the key absent (the corrupt file is deleted); a subsequent load of the absent
key reports no record, and a subsequent save plainly stores a fresh record. -/
theorem corrupt_record_self_heals (now now2 : Int) (max_retries n : Nat) :
    should_retry_now now max_retries StoredRecord.corrupt =
      (false, StoredRecord.absent) ∧
    History.load StoredRecord.absent = Except.ok none ∧
    History.save now2 n =
      StoredRecord.record { n_retries := n, last_update := now2 } :=
  ⟨rfl, rfl, rfl⟩

/-- C8: with both scopes enabled, an own-scope fetch failure and a successful
approved-scope fetch of n PRs yield the pair (0, n): the sweep completes, the
approved count is produced, and the own-scope error is absorbed (logged) as a
zero count instead of aborting the run. -/
theorem scope_isolation (n : Nat) :
    run_sweep true true (Except.error ()) (Except.ok n) = (0, n) := rfl

/-- C9: a successful own-scope fetch that returns no PRs panics on the
unconditional `prs[0]` index used to derive the username, so the own scope
never reports a count (not even 0) for a user with no open PRs. -/
theorem own_prs_empty_list_panics :
    own_prs (Except.ok []) = OwnPrsOutcome.panic_index_out_of_bounds ∧
    ∀ n : Nat,
      decide (own_prs (Except.ok []) = OwnPrsOutcome.ok n) = false :=
  ⟨rfl, fun _ => rfl⟩

/-- C10 counterexample: a first delete of an absent key already fails —
`remove_file` on a missing file returns a not-found error. -/
theorem delete_absent_key_fails_counterexample :
    History.deleteResult StoredRecord.absent = Except.error () := rfl

/-- C10 amended: delete succeeds and removes the record when a record exists,
and returns a not-found error whenever the key is absent — already on a first
call; the error is user-invisible only because every core caller discards
delete's result, while the test distinguishes a second delete by it. -/
theorem history_delete_semantics (h : History) :
    History.deleteResult (StoredRecord.record h) = Except.ok () ∧
    History.deleteState (StoredRecord.record h) = StoredRecord.absent ∧
    History.deleteResult StoredRecord.absent = Except.error () ∧
    History.deleteState StoredRecord.absent = StoredRecord.absent :=
  ⟨rfl, rfl, rfl, rfl⟩

/-- C7 counterexample: with a five-minute delay only from the second retry
on, two immediate calls with ceiling 2 on a fresh key both return true — the
claimed pair (true, false) is not what the code produces. -/
theorem second_immediate_call_grants_counterexample :
    (runCallsAcc [(0, 2), (0, 2)] StoredRecord.absent).1 = [true, true] ∧
    decide ((runCallsAcc [(0, 2), (0, 2)] StoredRecord.absent).1 =
      [true, false]) = false := by
  decide

/-- C7 amended: with backoffDelay 0 = 0 and backoffDelay n = 5 minutes for
n ≥ 1, a fresh key with ceiling 2 grants the first two immediate calls (the
first creates the count-0 record, the second advances it to 1), denies a
third immediate call, and grants again once five minutes have elapsed. -/
theorem two_tier_backoff_trace :
    backoff_time 0 = 0 ∧
    (∀ n : Nat, 1 ≤ n → backoff_time n = 5 * 60) ∧
    runCallsAcc [(0, 2), (0, 2), (0, 2), (5 * 60, 2)] StoredRecord.absent =
      ([true, true, false, true],
        StoredRecord.record { n_retries := 2, last_update := 5 * 60 }) := by
  refine ⟨rfl, fun n hn => ?_, by decide⟩
  have hnz : n ≠ 0 := by omega
  simp [backoff_time, hnz]

/-- Witness for C7's amended claim: the delay for a count of 7 is the fixed
five minutes. -/
theorem two_tier_backoff_trace_witness : backoff_time 7 = 5 * 60 :=
  two_tier_backoff_trace.2.1 7 (by decide)
